import Mathlib

/-!
Shallow embedding of the replicant orchestration core: the `Agent` message
loop with bounded conversational context, the task scheduler eligibility
rule, the `BaseSwarmProvider` (dynamic pool, quorum voting, task fan-out)
and the `BaseCoordinationProvider` (teams, hierarchies, collaborations).
Machine numbers that carry fractions (confidence values, thresholds,
multipliers) are modelled as `Rat`; JS `Map`s are modelled as association
lists keyed by strings; fallible operations thread their state and return
`Except String` so that "throws before any mutation" is expressible.
Dates / timestamps are not modelled.
-/

deriving instance DecidableEq for Except

namespace Replicant

/-- Chat message: role (`system`/`user`/`assistant`), content text, and the
`important` metadata flag consulted by the significance predicate. -/
structure Message where
  role : String
  content : String
  important : Bool := false
deriving Repr, DecidableEq

/-- A record handed to the memory collaborator via `storeMemory`:
content text, record type tag, and the `message_count` metadata field
(present only on `context_history` records). -/
structure MemoryRecord where
  content : String
  type : String
  messageCount : Option Nat
deriving Repr, DecidableEq

/-- AI-capability response: content, confidence, and the coalesced
`metadata?.emotional_state?.confidence ?? 0` value. -/
structure AIResponse where
  content : String
  confidence : Rat
  emotionalConfidence : Rat
deriving Repr, DecidableEq

/-- `Agent.maxContextSize` (readonly field, 100). -/
def maxContextSize : Nat := 100

/-- The `${m.role}: ${m.content}` formatting used when archiving overflow. -/
def formatMessage (m : Message) : String := m.role ++ ": " ++ m.content

/-- Context-window overflow step of `Agent.processMessage`: after the push,
if the window length exceeds `maxContextSize`, the oldest
`length - maxContextSize` entries are joined into one `context_history`
memory record (only when a memory provider is configured) and the window
is cut to its last `maxContextSize` entries (`slice(-maxContextSize)`). -/
def truncateContext (hasMemory : Bool) (w : List Message) :
    List Message × List MemoryRecord :=
  if maxContextSize < w.length then
    let old := w.take (w.length - maxContextSize)
    let recs : List MemoryRecord :=
      if hasMemory then
        [{ content := String.intercalate "\n" (old.map formatMessage),
           type := "context_history",
           messageCount := some old.length }]
      else []
    (w.drop (w.length - maxContextSize), recs)
  else (w, [])

/-- Result of one `Agent.processMessage` call: the context window after the
push/truncate, the memory records stored during the call, and the AI
response. -/
structure ProcResult where
  window : List Message
  records : List MemoryRecord
  response : AIResponse
deriving Repr, DecidableEq

/-- `Agent.processMessage`: push the inbound message onto the context
window, archive + truncate on overflow, then invoke the AI capability with
the (truncated) window as `context.messages`.  The returned response is
not pushed onto the window. -/
def processMessage (ai : Message → List Message → AIResponse)
    (hasMemory : Bool) (window : List Message) (m : Message) : ProcResult :=
  let w := window ++ [m]
  let tr := truncateContext hasMemory w
  { window := tr.1, records := tr.2, response := ai m tr.1 }

/-- `ConversationStateData` as built by `Agent.pause` / `Agent.shutdown`:
id, `turnCount` (set to the context-window length) and the
`variables.contextWindow` bag entry.  Timestamp fields are not modelled. -/
structure ConversationStateData where
  id : String
  turnCount : Nat
  contextWindow : List Message
deriving Repr, DecidableEq

/-- Association-list lookup, modelling `Map.get`. -/
def lookup {α : Type} : List (String × α) → String → Option α
  | [], _ => none
  | (k', v) :: rest, k => if k' = k then some v else lookup rest k

/-- Keyed `saveState` semantics: the provider stores the latest state per id. -/
def saveStore (store : List (String × ConversationStateData))
    (d : ConversationStateData) : List (String × ConversationStateData) :=
  (d.id, d) :: store.filter (fun p => p.1 != d.id)

/-- The per-instance state of the part_003 `Agent`, together with the
observable effect logs for one run: the contents of the state provider
(`store`), the records handed to the memory provider (`storedMemories`),
and the `message` events emitted (`emitted`). -/
structure AgentState where
  isRunning : Bool
  taskTimerActive : Bool
  providersActive : Bool
  messageQueue : List Message
  contextWindow : List Message
  store : List (String × ConversationStateData)
  storedMemories : List MemoryRecord
  emitted : List Message
deriving Repr, DecidableEq

/-- The fixed keyword set of `Agent.containsKeywords`. -/
def significantKeywords : List String :=
  ["important", "critical", "urgent", "remember", "key", "crucial"]

/-- Substring test (JS `String.includes`). -/
def strContainsSub (s pat : String) : Bool :=
  (List.range (s.length + 1)).any
    (fun i => pat.toList.isPrefixOf (s.toList.drop i))

/-- `Agent.containsKeywords`. -/
def containsKeywords (text : String) : Bool :=
  significantKeywords.any (fun keyword => strContainsSub text.toLower keyword)

/-- `Agent.isSignificantInteraction`; JS `0.8` modelled as `4/5`. -/
def isSignificantInteraction (m : Message) (r : AIResponse) : Bool :=
  decide ((4/5 : Rat) < r.confidence) || m.important ||
    decide ((4/5 : Rat) < r.emotionalConfidence) ||
    containsKeywords m.content || containsKeywords r.content

/-- The `interaction` memory record stored for a significant exchange. -/
def interactionRecord (m : Message) (r : AIResponse) : MemoryRecord :=
  { content := "User: " ++ m.content ++ "\nAgent: " ++ r.content,
    type := "interaction", messageCount := none }

/-- The `message` event payload emitted after processing. -/
def emittedMessage (r : AIResponse) : Message :=
  { role := "assistant", content := r.content }

/-- One iteration of `Agent.startMessageLoop`: while running, pop one
queued message, run `processMessage`, emit the response, and store an
`interaction` memory when significant.  The loop body performs no
`saveState` call, so `store` is untouched. -/
def loopIteration (ai : Message → List Message → AIResponse)
    (hasMemory : Bool) (s : AgentState) : AgentState :=
  if s.isRunning then
    match s.messageQueue with
    | [] => s
    | m :: rest =>
      let res := processMessage ai hasMemory s.contextWindow m
      { s with
        messageQueue := rest,
        contextWindow := res.window,
        emitted := s.emitted ++ [emittedMessage res.response],
        storedMemories := s.storedMemories ++ res.records ++
          (if hasMemory && isSignificantInteraction m res.response then
            [interactionRecord m res.response] else []) }
  else s

/-- Run `n` message-loop iterations. -/
def runLoop (ai : Message → List Message → AIResponse) (hasMemory : Bool) :
    Nat → AgentState → AgentState
  | 0, s => s
  | n + 1, s => runLoop ai hasMemory n (loopIteration ai hasMemory s)

/-- The state data saved by `Agent.pause`/`Agent.shutdown`:
`turnCount = contextWindow.length`. -/
def mkStateData (uid : String) (w : List Message) : ConversationStateData :=
  { id := uid, turnCount := w.length, contextWindow := w }

/-- `Agent.pause`: stop the loop and save state (when a state provider is
configured) without tearing anything down. -/
def pause (hasState : Bool) (uid : String) (s : AgentState) : AgentState :=
  let s1 := { s with isRunning := false }
  if hasState then
    { s1 with store := saveStore s1.store (mkStateData uid s1.contextWindow) }
  else s1

/-- `Agent.shutdown`: stop the loop, cancel the task timer, save final
state (when a state provider is configured), release the providers. -/
def shutdown (hasState : Bool) (uid : String) (s : AgentState) : AgentState :=
  let s1 := { s with isRunning := false, taskTimerActive := false }
  let s2 :=
    if hasState then
      { s1 with store := saveStore s1.store (mkStateData uid s1.contextWindow) }
    else s1
  { s2 with providersActive := false }

/-- Fresh agent right after `initialize` with an empty persisted store and
`msgs` already enqueued. -/
def initialAgentState (msgs : List Message) : AgentState :=
  { isRunning := true, taskTimerActive := true, providersActive := true,
    messageQueue := msgs, contextWindow := [], store := [],
    storedMemories := [], emitted := [] }

/-- A schedule time range: start hour, end hour (half-open; the source
field `end` is a Lean keyword, rendered `stop`), weight multiplier. -/
structure TimeRange where
  start : Nat
  stop : Nat
  multiplier : Rat
deriving Repr, DecidableEq

/-- Task schedule: time ranges plus optional allowed days-of-week
(0 = Sunday). -/
structure TaskSchedule where
  timeRanges : List TimeRange
  daysOfWeek : Option (List Nat)
deriving Repr, DecidableEq

/-- The task fields consulted by the scheduler. -/
structure Task where
  id : String
  goalId : String
  description : String
  status : String
  priority : Int
  weight : Option Rat
  schedule : Option TaskSchedule
deriving Repr, DecidableEq

/-- Day filter: pass when absent, otherwise the day must be listed. -/
def dayOk (sched : TaskSchedule) (day : Nat) : Bool :=
  match sched.daysOfWeek with
  | none => true
  | some days => days.contains day

/-- `hour >= range.start && hour < range.end`. -/
def rangeMatches (hour : Nat) (r : TimeRange) : Bool :=
  decide (r.start ≤ hour) && decide (hour < r.stop)

/-- `Agent.shouldExecuteTask`: eligibility of a task at (day, hour); on the
first matching time range the weight is multiplied in place by that
range's multiplier. -/
def shouldExecuteTask (day hour : Nat) (task : Task) : Bool × Task :=
  match task.schedule with
  | none => (true, task)
  | some sched =>
    if !(dayOk sched day) then (false, task)
    else
      match sched.timeRanges.find? (rangeMatches hour) with
      | some r =>
        (true,
         { task with weight := task.weight.map (fun w => w * r.multiplier) })
      | none => (false, task)

/-- The schedule filter of `BaseGoalProvider.getNextTasks`. -/
def taskEligible (day hour : Nat) (task : Task) : Bool :=
  match task.schedule with
  | none => true
  | some sched => dayOk sched day && sched.timeRanges.any (rangeMatches hour)

/-- Stable insertion for descending-priority order (JS `sort` is stable;
ties keep their original relative order). -/
def insertByPriority (t : Task) : List Task → List Task
  | [] => [t]
  | u :: rest =>
    if u.priority < t.priority then t :: u :: rest
    else u :: insertByPriority t rest

/-- Stable sort by priority descending. -/
def sortByPriority : List Task → List Task
  | [] => []
  | t :: rest => insertByPriority t (sortByPriority rest)

/-- `BaseGoalProvider.getNextTasks` at an explicit (day, hour): pending
tasks passing the schedule filter, by priority descending, first `count`. -/
def getNextTasks (tasks : List Task) (count : Nat) (day hour : Nat) :
    List Task :=
  (sortByPriority (tasks.filter
    (fun t => t.status == "pending" && taskEligible day hour t))).take count

/-- A schedule for Mondays 09:00-17:00 with multiplier 2. -/
def mondaySched : TaskSchedule :=
  { timeRanges := [{ start := 9, stop := 17, multiplier := 2 }],
    daysOfWeek := some [1] }

/-- A pending task scheduled only for Monday 09:00-17:00, weight 2. -/
def mondayTask : Task :=
  { id := "task-1", goalId := "g1", description := "weekly check",
    status := "pending", priority := 1, weight := some 2,
    schedule := some mondaySched }

/-- Concrete messages and AI capability used in witnesses. -/
def mA : Message := { role := "user", content := "alpha" }

def mB : Message := { role := "user", content := "beta" }

def mC : Message := { role := "user", content := "gamma" }

def aiEcho : Message → List Message → AIResponse :=
  fun m _ =>
    { content := "echo: " ++ m.content, confidence := 1/2,
      emotionalConfidence := 0 }

/-- Generic association-map update (JS `Map.set` / object key write):
an existing key keeps its position, a new key is appended. -/
def setKV {α : Type} : List (String × α) → String → α → List (String × α)
  | [], k, v => [(k, v)]
  | (k0, v0) :: rest, k, v =>
    if k0 = k then (k0, v) :: rest else (k0, v0) :: setKV rest k v

/-- A swarm decision ballot: fixed options, one vote per agent id
(last write wins), derived confidence, reasoning log. -/
structure SwarmDecision where
  topic : String
  options : List String
  votes : List (String × String)
  confidence : Rat
  reasoning : List String
deriving Repr, DecidableEq

/-- The swarm configuration fields the embedded operations consult. -/
structure SwarmConfig where
  maxAgents : Nat
  minAgents : Nat
  consensusThreshold : Rat
deriving Repr, DecidableEq

/-- `BaseSwarmProvider` registries: the agent pool (`Map` keys, insertion
order), decisions by topic, and per-agent assigned-task sets. -/
structure SwarmState where
  config : SwarmConfig
  agents : List String
  decisions : List (String × SwarmDecision)
  taskAssignments : List (String × List String)
deriving Repr, DecidableEq

/-- Number of votes cast for one option. -/
def voteCount (votes : List (String × String)) (opt : String) : Nat :=
  (votes.filter (fun p => p.2 == opt)).length

/-- Size of the largest vote group (`Math.max(...distribution)`). -/
def maxVoteCount (votes : List (String × String)) : Nat :=
  (votes.map (fun p => voteCount votes p.2)).foldr max 0

/-- `updateDecisionConfidence`: with at least one vote, confidence becomes
(largest vote group) / (votes cast); with zero votes it is untouched. -/
def updateDecisionConfidence (d : SwarmDecision) : SwarmDecision :=
  if d.votes.length = 0 then d
  else { d with confidence := (maxVoteCount d.votes : Rat) / d.votes.length }

/-- The confidence value maintained for a ballot by the provider. -/
def calcConfidence (votes : List (String × String)) : Rat :=
  if votes.length = 0 then 0
  else (maxVoteCount votes : Rat) / votes.length

/-- `spawnAgent`: fails when the pool already holds `maxAgents`; otherwise
registers the fresh agent id (id generation is nondeterministic in the
source, so the fresh id is a parameter). -/
def spawnAgent (fresh : String) (s : SwarmState) :
    Except String String × SwarmState :=
  if s.config.maxAgents ≤ s.agents.length then
    (.error "Maximum number of agents reached", s)
  else (.ok fresh, { s with agents := s.agents ++ [fresh] })

/-- `mergeAgents`: silently returns on fewer than two ids; fails when the
merge would leave fewer than `minAgents` (JS arithmetic, hence `Int`);
otherwise spawns one replacement and deletes the merged ids. -/
def mergeAgents (fresh : String) (s : SwarmState) (agentIds : List String) :
    Except String Unit × SwarmState :=
  if agentIds.length < 2 then (.ok (), s)
  else if (s.agents.length : Int) - agentIds.length + 1 <
      (s.config.minAgents : Int) then
    (.error "Cannot merge agents: would result in too few agents", s)
  else
    match spawnAgent fresh s with
    | (.error e, s1) => (.error e, s1)
    | (.ok _, s1) =>
      (.ok (),
       { s1 with agents := s1.agents.filter (fun a => !(agentIds.contains a)) })

/-- `proposeDecision`: opens a ballot with zero votes. -/
def proposeDecision (s : SwarmState) (topic : String) (options : List String) :
    Except String String × SwarmState :=
  let d : SwarmDecision :=
    { topic := topic, options := options, votes := [], confidence := 0,
      reasoning := [] }
  (.ok topic, { s with decisions := setKV s.decisions topic d })

/-- `submitVote`: fails on unknown topic or a vote outside the option set;
otherwise records the vote (last write wins) and recomputes confidence. -/
def submitVote (s : SwarmState) (agentId topic vote : String)
    (confidence : Rat) : Except String Unit × SwarmState :=
  match lookup s.decisions topic with
  | none => (.error "Decision not found", s)
  | some d =>
    if d.options.contains vote then
      let entry := "Agent " ++ agentId ++ " voted for " ++ vote ++
        " with confidence " ++ toString confidence
      let d1 := { d with votes := setKV d.votes agentId vote,
                         reasoning := d.reasoning ++ [entry] }
      let d2 := updateDecisionConfidence d1
      (.ok (), { s with decisions := setKV s.decisions topic d2 })
    else (.error "Invalid vote option", s)

/-- `getConsensus`: `null` for an unknown topic and for a known topic whose
vote count is below `agents.size * consensusThreshold`; otherwise the
decision.  Never an error, never a mutation. -/
def getConsensus (s : SwarmState) (topic : String) :
    Option SwarmDecision × SwarmState :=
  match lookup s.decisions topic with
  | none => (none, s)
  | some d =>
    if (d.votes.length : Rat) <
        (s.agents.length : Rat) * s.config.consensusThreshold then
      (none, s)
    else (some d, s)

/-- An agent's current assigned-task set (`taskAssignments.get ?? ∅`). -/
def assignedTasks (s : SwarmState) (aid : String) : List String :=
  (lookup s.taskAssignments aid).getD []

/-- Candidate agents for `distributeTask`: fewer than 3 assigned tasks. -/
def availableAgents (s : SwarmState) : List String :=
  s.agents.filter (fun aid => (assignedTasks s aid).length < 3)

/-- Set-insert of a task id into an assignment set. -/
def insertTask (tasks : List String) (tid : String) : List String :=
  if tasks.contains tid then tasks else tasks ++ [tid]

/-- `Math.ceil(Math.sqrt(n))` on naturals: the least `r` with `n ≤ r * r`. -/
def ceilSqrt (n : Nat) : Nat :=
  match (List.range (n + 1)).find? (fun r => n ≤ r * r) with
  | some r => r
  | none => n

/-- The assignment loop of `distributeTask`: add the task id to each
assignee's set in order. -/
def assignTask (s : SwarmState) (tid : String) : List String → SwarmState
  | [] => s
  | aid :: rest =>
    let m1 := setKV s.taskAssignments aid (insertTask (assignedTasks s aid) tid)
    assignTask { s with taskAssignments := m1 } tid rest

/-- `distributeTask`: candidates are agents under the 3-task cap; when none
exist, spawn one if capacity allows, else fail; assign to the first
`ceil(sqrt(|candidates|))` candidates. -/
def distributeTask (fresh : String) (s : SwarmState) (taskId : String) :
    Except String (List String) × SwarmState :=
  let avail := availableAgents s
  if avail.isEmpty then
    if s.agents.length < s.config.maxAgents then
      match spawnAgent fresh s with
      | (.error e, s1) => (.error e, s1)
      | (.ok newId, s1) =>
        let assigned := [newId].take (ceilSqrt [newId].length)
        (.ok assigned, assignTask s1 taskId assigned)
    else (.error "No available agents and cannot spawn more", s)
  else
    let assigned := avail.take (ceilSqrt avail.length)
    (.ok assigned, assignTask s taskId assigned)

/-- The confidence invariant maintained for every stored ballot. -/
def DecisionsInv (s : SwarmState) : Prop :=
  ∀ p ∈ s.decisions, p.2.confidence = calcConfidence p.2.votes

/-- A team member entry: agent id, role name, active/inactive status. -/
structure TeamMember where
  agentId : String
  roleName : String
  status : String
deriving Repr, DecidableEq

/-- Optional strict hierarchy: leader plus manager → reports chain. -/
structure TeamHierarchy where
  leaderId : String
  reportingChain : List (String × List String)
deriving Repr, DecidableEq

structure AgentTeam where
  id : String
  name : String
  members : List TeamMember
  hierarchy : Option TeamHierarchy
deriving Repr, DecidableEq

structure Collaboration where
  id : String
  teamId : String
  status : String
  participants : List String
  sharedKnowledge : List (String × String)
deriving Repr, DecidableEq

/-- `BaseCoordinationProvider` registries. -/
structure CoordState where
  teams : List (String × AgentTeam)
  collaborations : List (String × Collaboration)
deriving Repr, DecidableEq

/-- The reporting-chain walk of `createTeam` validation: first missing
manager or report, in chain order. -/
def validateChain (team : AgentTeam) :
    List (String × List String) → Option String
  | [] => none
  | (managerId, reports) :: rest =>
    if !(team.members.any (fun m => m.agentId == managerId)) then
      some ("Manager " ++ managerId ++ " not found in team")
    else
      match reports.find?
          (fun r => !(team.members.any (fun m => m.agentId == r))) with
      | some reportId => some ("Report " ++ reportId ++ " not found in team")
      | none => validateChain team rest

/-- The full `createTeam` validation, returning the first error raised. -/
def validateTeam (team : AgentTeam) : Option String :=
  if team.members.isEmpty then some "Team must have at least one member"
  else
    match team.hierarchy with
    | none => none
    | some h =>
      if !(team.members.any (fun m => m.agentId == h.leaderId)) then
        some "Team leader must be a team member"
      else validateChain team h.reportingChain

/-- `createTeam`: validate, then commit; on any violation nothing is
stored. -/
def createTeam (s : CoordState) (team : AgentTeam) :
    Except String Unit × CoordState :=
  match validateTeam team with
  | some e => (.error e, s)
  | none => (.ok (), { s with teams := setKV s.teams team.id team })

/-- `team.hierarchy?.reportingChain[agentId]?.length` is truthy. -/
def managerHasReports (team : AgentTeam) (aid : String) : Bool :=
  match team.hierarchy with
  | none => false
  | some h => !((lookup h.reportingChain aid).getD []).isEmpty

/-- Eviction step applied to one collaboration during `removeMember`:
an active collaboration containing the agent loses them, and is auto-ended
with the default summary when its participant set becomes empty. -/
def evictFromCollab (aid : String) (c : Collaboration) : Collaboration :=
  if c.status == "active" && c.participants.contains aid then
    let ps := c.participants.filter (fun pid => pid != aid)
    if ps.isEmpty then
      let sk := setKV c.sharedKnowledge "summary" "No active participants"
      { c with participants := ps, status := "completed", sharedKnowledge := sk }
    else { c with participants := ps }
  else c

/-- `removeMember`: refuse for the leader or a manager with a non-empty
reports list; otherwise evict from every collaboration and drop the
member. -/
def removeMember (s : CoordState) (teamId agentId : String) :
    Except String Unit × CoordState :=
  match lookup s.teams teamId with
  | none => (.error ("Team " ++ teamId ++ " not found"), s)
  | some team =>
    if team.hierarchy.map (fun h => h.leaderId) = some agentId then
      (.error ("Cannot remove team leader " ++ agentId), s)
    else if managerHasReports team agentId then
      (.error ("Cannot remove manager " ++ agentId ++ " with active reports"),
       s)
    else
      let collabs :=
        s.collaborations.map (fun p => (p.1, evictFromCollab agentId p.2))
      let team1 := { team with
        members := team.members.filter (fun m => m.agentId != agentId) }
      (.ok (), { s with collaborations := collabs,
                        teams := setKV s.teams teamId team1 })

def mkMember (aid role : String) : TeamMember :=
  { agentId := aid, roleName := role, status := "active" }

/-- Scenario team: leader L, manager M reporting to L, report R
reporting to M. -/
def hierLMR : TeamHierarchy :=
  { leaderId := "L", reportingChain := [("L", ["M"]), ("M", ["R"])] }

def teamLMR : AgentTeam :=
  { id := "t", name := "demo",
    members := [mkMember "L" "leader", mkMember "M" "manager",
      mkMember "R" "worker"],
    hierarchy := some hierLMR }

/-- An active collaboration whose only participant is R. -/
def collabR : Collaboration :=
  { id := "c1", teamId := "t", status := "active", participants := ["R"],
    sharedKnowledge := [] }

def coordDemo : CoordState :=
  { teams := [("t", teamLMR)], collaborations := [("c1", collabR)] }

/-- A team whose declared leader is not among its members. -/
def badTeam : AgentTeam :=
  { id := "t1", name := "bad", members := [mkMember "A" "worker"],
    hierarchy := some { leaderId := "L", reportingChain := [] } }

def coordEmpty : CoordState := { teams := [], collaborations := [] }

/-- A swarm at capacity (`maxAgents = 1`). -/
def swarmOne : SwarmState :=
  { config := { maxAgents := 1, minAgents := 1, consensusThreshold := 1/2 },
    agents := ["a1"], decisions := [], taskAssignments := [] }

/-- A swarm where merging its two agents would drop below `minAgents`. -/
def swarmTwo : SwarmState :=
  { config := { maxAgents := 5, minAgents := 2, consensusThreshold := 1/2 },
    agents := ["a1", "a2"], decisions := [], taskAssignments := [] }

theorem truncateContext_of_lt (w : List Message)
    (h : maxContextSize < w.length) :
    truncateContext true w =
      (w.drop (w.length - maxContextSize),
       [{ content := String.intercalate "\n"
            ((w.take (w.length - maxContextSize)).map formatMessage),
          type := "context_history",
          messageCount := some (w.take (w.length - maxContextSize)).length }]) := by
  simp only [truncateContext]
  rw [if_pos h]
  simp

theorem truncateContext_of_le (hasMemory : Bool) (w : List Message)
    (h : w.length ≤ maxContextSize) :
    truncateContext hasMemory w = (w, []) := by
  simp only [truncateContext]
  rw [if_neg (by omega)]

end Replicant

namespace Replicant

/-- C1: for every context window and inbound message, after
`processMessage` the window length is at most `maxContextSize` (100);
when the pushed window exceeds 100 the dropped entries are exactly the
oldest `length - 100` ones, archived exactly once as a single record whose
text concatenates the dropped entries in original order, and the surviving
window is the original tail in order; otherwise nothing is dropped or
archived. -/
theorem C1_context_window_bounded_overflow_archival
    (ai : Message → List Message → AIResponse) (window : List Message)
    (m : Message) :
    (processMessage ai true window m).window.length ≤ maxContextSize ∧
    (maxContextSize < (window ++ [m]).length →
      (processMessage ai true window m).records =
        [{ content := String.intercalate "\n"
              (((window ++ [m]).take
                  ((window ++ [m]).length - maxContextSize)).map formatMessage),
           type := "context_history",
           messageCount := some ((window ++ [m]).length - maxContextSize) }] ∧
      (processMessage ai true window m).window =
        (window ++ [m]).drop ((window ++ [m]).length - maxContextSize)) ∧
    ((window ++ [m]).length ≤ maxContextSize →
      (processMessage ai true window m).records = [] ∧
      (processMessage ai true window m).window = window ++ [m]) := by
  by_cases h : maxContextSize < (window ++ [m]).length
  · simp only [processMessage, truncateContext_of_lt (window ++ [m]) h]
    refine ⟨?_, fun _ => ⟨?_, by trivial⟩, fun h' => absurd h (by omega)⟩
    · simp only [List.length_drop]
      omega
    · have hlen : (List.take ((window ++ [m]).length - maxContextSize)
          (window ++ [m])).length = (window ++ [m]).length - maxContextSize := by
        simp only [List.length_take]
        omega
      rw [hlen]
  · have h' : (window ++ [m]).length ≤ maxContextSize := by omega
    simp only [processMessage, truncateContext_of_le true (window ++ [m]) h']
    exact ⟨by omega, fun hc => absurd hc h, fun _ => ⟨by trivial, by trivial⟩⟩

/-- Witness for C1: a window of 100 messages plus one inbound overflows by
one; the single archived record holds exactly the oldest entry and the
surviving window is the tail. -/
theorem C1_witness :
    maxContextSize < ((mA :: List.replicate 99 mB) ++ [mC]).length ∧
    (processMessage aiEcho true (mA :: List.replicate 99 mB) mC).records =
      [{ content := String.intercalate "\n"
            ((((mA :: List.replicate 99 mB) ++ [mC]).take
                (((mA :: List.replicate 99 mB) ++ [mC]).length -
                  maxContextSize)).map formatMessage),
         type := "context_history",
         messageCount := some (((mA :: List.replicate 99 mB) ++ [mC]).length -
           maxContextSize) }] ∧
    (processMessage aiEcho true (mA :: List.replicate 99 mB) mC).window =
      ((mA :: List.replicate 99 mB) ++ [mC]).drop
        (((mA :: List.replicate 99 mB) ++ [mC]).length - maxContextSize) :=
  ⟨by decide,
   (C1_context_window_bounded_overflow_archival aiEcho
      (mA :: List.replicate 99 mB) mC).2.1 (by decide)⟩

theorem truncateContext_window (hasMemory : Bool) (w : List Message) :
    (truncateContext hasMemory w).1 =
      if maxContextSize < w.length then w.drop (w.length - maxContextSize)
      else w := by
  by_cases h : maxContextSize < w.length
  · simp only [truncateContext]
    rw [if_pos h, if_pos h]
  · simp only [truncateContext]
    rw [if_neg h, if_neg h]

theorem processMessage_window_length (ai : Message → List Message → AIResponse)
    (hasMemory : Bool) (w : List Message) (m : Message) :
    (processMessage ai hasMemory w m).window.length =
      min (w.length + 1) maxContextSize := by
  simp only [processMessage, truncateContext_window]
  by_cases h : maxContextSize < (w ++ [m]).length
  · rw [if_pos h]
    simp only [List.length_drop, List.length_append, List.length_cons,
      List.length_nil] at h ⊢
    omega
  · rw [if_neg h]
    simp only [List.length_append, List.length_cons, List.length_nil] at h ⊢
    omega

theorem loopIteration_store (ai : Message → List Message → AIResponse)
    (hasMemory : Bool) (s : AgentState) :
    (loopIteration ai hasMemory s).store = s.store := by
  simp only [loopIteration]
  by_cases h : s.isRunning
  · rw [if_pos h]
    cases s.messageQueue <;> rfl
  · rw [if_neg h]

theorem loopIteration_cons (ai : Message → List Message → AIResponse)
    (hasMemory : Bool) (s : AgentState) (m : Message) (rest : List Message)
    (hrun : s.isRunning = true) (hq : s.messageQueue = m :: rest) :
    loopIteration ai hasMemory s =
      { s with
        messageQueue := rest,
        contextWindow := (processMessage ai hasMemory s.contextWindow m).window,
        emitted := s.emitted ++
          [emittedMessage (processMessage ai hasMemory s.contextWindow m).response],
        storedMemories := s.storedMemories ++
          (processMessage ai hasMemory s.contextWindow m).records ++
          (if hasMemory &&
              isSignificantInteraction m
                (processMessage ai hasMemory s.contextWindow m).response then
            [interactionRecord m
              (processMessage ai hasMemory s.contextWindow m).response]
          else []) } := by
  simp only [loopIteration, hq]
  rw [if_pos hrun]

/-- After draining a queue of `n` messages, the context window has grown
by `n` up to the cap of `maxContextSize`. -/
theorem runLoop_contextWindow_length (ai : Message → List Message → AIResponse)
    (hasMemory : Bool) (msgs : List Message) (s : AgentState)
    (hrun : s.isRunning = true) (hq : s.messageQueue = msgs)
    (hlen : s.contextWindow.length ≤ maxContextSize) :
    (runLoop ai hasMemory msgs.length s).contextWindow.length =
      min (s.contextWindow.length + msgs.length) maxContextSize := by
  induction msgs generalizing s with
  | nil =>
    simp only [List.length_nil, runLoop]
    omega
  | cons m rest ih =>
    have hstep := loopIteration_cons ai hasMemory s m rest hrun hq
    have hwin := processMessage_window_length ai hasMemory s.contextWindow m
    have hrun' : (loopIteration ai hasMemory s).isRunning = true := by
      rw [hstep]; exact hrun
    have hq' : (loopIteration ai hasMemory s).messageQueue = rest := by
      rw [hstep]
    have hwl : (loopIteration ai hasMemory s).contextWindow.length =
        min (s.contextWindow.length + 1) maxContextSize := by
      rw [hstep]; exact hwin
    have hle : (loopIteration ai hasMemory s).contextWindow.length ≤
        maxContextSize := by
      rw [hwl]; omega
    simp only [List.length_cons, runLoop]
    rw [ih (loopIteration ai hasMemory s) hrun' hq' hle, hwl]
    omega

theorem lookup_saveStore_self (st : List (String × ConversationStateData))
    (d : ConversationStateData) : lookup (saveStore st d) d.id = some d := by
  simp [saveStore, lookup]

theorem saveStore_idem (st : List (String × ConversationStateData))
    (d : ConversationStateData) :
    saveStore (saveStore st d) d = saveStore st d := by
  simp [saveStore, List.filter_filter]

/-- C2 counterexample: one message is fully processed by the loop (queue
drained, response emitted) yet the state provider's store is untouched —
no conversation state is persisted after the processed message, so no
persisted `turnCount` increment of 1 exists. -/
theorem C2_counterexample :
    (loopIteration aiEcho true (initialAgentState [mA])).messageQueue = [] ∧
    (loopIteration aiEcho true (initialAgentState [mA])).emitted =
      [{ role := "assistant", content := "echo: alpha" }] ∧
    (loopIteration aiEcho true (initialAgentState [mA])).store = [] ∧
    ¬ ∃ d : ConversationStateData,
        lookup (loopIteration aiEcho true (initialAgentState [mA])).store
          d.id = some d := by
  refine ⟨by decide, by decide, by decide, ?_⟩
  rintro ⟨d, hd⟩
  have : (loopIteration aiEcho true (initialAgentState [mA])).store = [] := by
    decide
  rw [this] at hd
  simp [lookup] at hd

/-- C2 (amended): the message loop itself never writes to the state
provider; conversation state is persisted only by `pause`/`shutdown`,
which save `turnCount = contextWindow.length`.  Hence after draining `n`
queued messages from a fresh window and then pausing, the persisted
`turnCount` is `min n 100` — per-message increments of exactly 1 hold only
up to the context cap, and there is no per-message save. -/
theorem C2_amended_persistence_only_on_pause_shutdown
    (ai : Message → List Message → AIResponse) (hasMemory : Bool)
    (s : AgentState) (msgs : List Message) (uid : String) :
    (loopIteration ai hasMemory s).store = s.store ∧
    (pause true uid s).store =
      saveStore s.store (mkStateData uid s.contextWindow) ∧
    (s.contextWindow = [] → s.isRunning = true → s.messageQueue = msgs →
      lookup (pause true uid (runLoop ai hasMemory msgs.length s)).store uid =
        some (mkStateData uid
          (runLoop ai hasMemory msgs.length s).contextWindow) ∧
      (runLoop ai hasMemory msgs.length s).contextWindow.length =
        min msgs.length maxContextSize) := by
  refine ⟨loopIteration_store ai hasMemory s, rfl, fun hw hrun hq => ⟨?_, ?_⟩⟩
  · have := lookup_saveStore_self
      (runLoop ai hasMemory msgs.length s).store
      (mkStateData uid (runLoop ai hasMemory msgs.length s).contextWindow)
    simpa [pause, mkStateData] using this
  · have := runLoop_contextWindow_length ai hasMemory msgs s hrun hq
      (by rw [hw]; simp [maxContextSize])
    rw [this, hw]
    simp

/-- Witness for C2 (amended): two fresh messages, then pause; the
persisted `turnCount` is 2. -/
theorem C2_amended_witness :
    lookup (pause true "u"
        (runLoop aiEcho true ([mA, mB] : List Message).length
          (initialAgentState [mA, mB]))).store "u" =
      some (mkStateData "u"
        (runLoop aiEcho true ([mA, mB] : List Message).length
          (initialAgentState [mA, mB])).contextWindow) ∧
    (runLoop aiEcho true ([mA, mB] : List Message).length
        (initialAgentState [mA, mB])).contextWindow.length =
      min ([mA, mB] : List Message).length maxContextSize :=
  (C2_amended_persistence_only_on_pause_shutdown aiEcho true
    (initialAgentState [mA, mB]) [mA, mB] "u").2.2 rfl rfl rfl

/-- C3 counterexample: after one loop iteration the assistant response is
emitted but the context window contains only the inbound message — the
returned assistant message is never appended to the window. -/
theorem C3_counterexample :
    (loopIteration aiEcho true (initialAgentState [mA])).emitted =
      [{ role := "assistant", content := "echo: alpha" }] ∧
    (loopIteration aiEcho true (initialAgentState [mA])).contextWindow =
      [mA] ∧
    ({ role := "assistant", content := "echo: alpha" } : Message) ∉
      (loopIteration aiEcho true (initialAgentState [mA])).contextWindow := by
  decide

/-- C3 (amended): each loop iteration that pops a queued message appends
the inbound message to the context window (subject to overflow
truncation), invokes the AI capability with that message and the updated
window, and emits the returned assistant message — without appending the
response to the context window: the window after the iteration is exactly
the truncated push of the inbound message. -/
theorem C3_amended_response_not_appended
    (ai : Message → List Message → AIResponse) (hasMemory : Bool)
    (s : AgentState) (m : Message) (rest : List Message)
    (hrun : s.isRunning = true) (hq : s.messageQueue = m :: rest) :
    (loopIteration ai hasMemory s).messageQueue = rest ∧
    (loopIteration ai hasMemory s).contextWindow =
      (truncateContext hasMemory (s.contextWindow ++ [m])).1 ∧
    ((s.contextWindow ++ [m]).length ≤ maxContextSize →
      (loopIteration ai hasMemory s).contextWindow =
        s.contextWindow ++ [m]) ∧
    (loopIteration ai hasMemory s).emitted =
      s.emitted ++ [emittedMessage
        (ai m (truncateContext hasMemory (s.contextWindow ++ [m])).1)] := by
  have hstep := loopIteration_cons ai hasMemory s m rest hrun hq
  refine ⟨by rw [hstep], by rw [hstep]; rfl, fun hle => ?_, by rw [hstep]; rfl⟩
  rw [hstep]
  simp only [processMessage]
  exact congrArg Prod.fst (truncateContext_of_le hasMemory _ hle)

/-- Witness for C3 (amended) at a concrete running agent. -/
theorem C3_amended_witness :
    (loopIteration aiEcho true (initialAgentState [mA, mB])).messageQueue =
      [mB] ∧
    (loopIteration aiEcho true (initialAgentState [mA, mB])).contextWindow =
      (truncateContext true
        ((initialAgentState [mA, mB]).contextWindow ++ [mA])).1 ∧
    (((initialAgentState [mA, mB]).contextWindow ++ [mA]).length ≤
        maxContextSize →
      (loopIteration aiEcho true (initialAgentState [mA, mB])).contextWindow =
        (initialAgentState [mA, mB]).contextWindow ++ [mA]) ∧
    (loopIteration aiEcho true (initialAgentState [mA, mB])).emitted =
      (initialAgentState [mA, mB]).emitted ++ [emittedMessage
        (aiEcho mA (truncateContext true
          ((initialAgentState [mA, mB]).contextWindow ++ [mA])).1)] :=
  C3_amended_response_not_appended aiEcho true (initialAgentState [mA, mB])
    mA [mB] rfl rfl

theorem lookup_mem {α : Type} (l : List (String × α)) (k : String) (v : α)
    (h : lookup l k = some v) : (k, v) ∈ l := by
  induction l with
  | nil => simp [lookup] at h
  | cons p rest ih =>
    obtain ⟨k0, v0⟩ := p
    simp only [lookup] at h
    by_cases hk : k0 = k
    · rw [if_pos hk] at h
      obtain rfl : v0 = v := by injection h
      subst hk
      exact List.mem_cons_self _ _
    · rw [if_neg hk] at h
      exact List.mem_cons_of_mem _ (ih h)

theorem lookup_setKV_self {α : Type} (m : List (String × α)) (k : String)
    (v : α) : lookup (setKV m k v) k = some v := by
  induction m with
  | nil => simp [setKV, lookup]
  | cons p rest ih =>
    obtain ⟨k0, v0⟩ := p
    by_cases hk : k0 = k
    · simp [setKV, hk, lookup]
    · simp [setKV, hk, lookup, ih]

theorem lookup_setKV_ne {α : Type} (m : List (String × α)) (k k' : String)
    (v : α) (h : k ≠ k') : lookup (setKV m k v) k' = lookup m k' := by
  induction m with
  | nil => simp [setKV, lookup, h]
  | cons p rest ih =>
    obtain ⟨k0, v0⟩ := p
    by_cases hk : k0 = k
    · subst hk
      simp [setKV, lookup, h, ih]
    · simp only [setKV]
      rw [if_neg hk]
      by_cases hk' : k0 = k'
      · simp [lookup, hk']
      · simp [lookup, hk', ih]

theorem mem_setKV {α : Type} (m : List (String × α)) (k : String) (v : α)
    (p : String × α) (hp : p ∈ setKV m k v) : p = (k, v) ∨ p ∈ m := by
  induction m with
  | nil => simpa [setKV] using hp
  | cons q rest ih =>
    obtain ⟨k0, v0⟩ := q
    by_cases hk : k0 = k
    · simp only [setKV] at hp
      rw [if_pos hk] at hp
      rcases List.mem_cons.mp hp with h | h
      · left
        rw [h, hk]
      · right
        exact List.mem_cons_of_mem _ h
    · simp only [setKV] at hp
      rw [if_neg hk] at hp
      rcases List.mem_cons.mp hp with h | h
      · right
        exact h ▸ List.mem_cons_self _ _
      · rcases ih h with h' | h'
        · exact Or.inl h'
        · exact Or.inr (List.mem_cons_of_mem _ h')

theorem setKV_ne_nil {α : Type} (m : List (String × α)) (k : String) (v : α) :
    setKV m k v ≠ [] := by
  cases m with
  | nil => simp [setKV]
  | cons p rest =>
    obtain ⟨k0, v0⟩ := p
    by_cases hk : k0 = k <;> simp [setKV, hk]

theorem DecisionsInv_propose (s : SwarmState) (topic : String)
    (options : List String) (h : DecisionsInv s) :
    DecisionsInv (proposeDecision s topic options).2 := by
  intro p hp
  simp only [proposeDecision] at hp
  rcases mem_setKV _ _ _ p hp with h' | h'
  · subst h'
    simp [calcConfidence]
  · exact h p h'

theorem DecisionsInv_submitVote (s : SwarmState) (aid topic vote : String)
    (conf : Rat) (h : DecisionsInv s) :
    DecisionsInv (submitVote s aid topic vote conf).2 := by
  intro p hp
  simp only [submitVote] at hp
  cases hl : lookup s.decisions topic with
  | none =>
    simp only [hl] at hp
    exact h p hp
  | some d =>
    simp only [hl] at hp
    by_cases hv : d.options.contains vote = true
    · rw [if_pos hv] at hp
      rcases mem_setKV _ _ _ p hp with h' | h'
      · subst h'
        have hne := setKV_ne_nil d.votes aid vote
        have hlen : (setKV d.votes aid vote).length ≠ 0 := by
          intro h0
          exact hne (List.length_eq_zero.mp h0)
        simp [updateDecisionConfidence, calcConfidence, hlen]
      · exact h p h'
    · rw [if_neg hv] at hp
      exact h p hp

/-- C4: with the maintained confidence invariant, `getConsensus` on a
proposed topic returns no decision exactly while the number of votes cast
is below `ceil(consensusThreshold * agentCount)`; once that many votes are
cast it returns the decision, whose confidence equals
(largest vote group) / (votes cast); the registry is never modified. -/
theorem C4_consensus_quorum_and_confidence (s : SwarmState) (topic : String)
    (d : SwarmDecision) (hInv : DecisionsInv s)
    (hd : lookup s.decisions topic = some d) :
    (d.votes.length <
        Nat.ceil (s.config.consensusThreshold * (s.agents.length : Rat)) →
      (getConsensus s topic).1 = none) ∧
    (Nat.ceil (s.config.consensusThreshold * (s.agents.length : Rat)) ≤
        d.votes.length →
      (getConsensus s topic).1 = some d ∧
      (0 < d.votes.length →
        d.confidence = (maxVoteCount d.votes : Rat) / d.votes.length)) ∧
    (getConsensus s topic).2 = s := by
  have hcomm : (s.agents.length : Rat) * s.config.consensusThreshold =
      s.config.consensusThreshold * (s.agents.length : Rat) := mul_comm _ _
  refine ⟨fun hlt => ?_, fun hge => ⟨?_, fun hpos => ?_⟩, ?_⟩
  · have hq : (d.votes.length : Rat) <
        s.config.consensusThreshold * (s.agents.length : Rat) :=
      Nat.lt_ceil.mp hlt
    simp only [getConsensus, hd]
    rw [if_pos (by rw [hcomm]; exact hq)]
  · have hq : s.config.consensusThreshold * (s.agents.length : Rat) ≤
        (d.votes.length : Rat) := Nat.ceil_le.mp hge
    simp only [getConsensus, hd]
    rw [if_neg (by rw [hcomm]; exact not_lt.mpr hq)]
  · have hc := hInv (topic, d) (lookup_mem _ _ _ hd)
    simp only [calcConfidence] at hc
    rw [if_neg (by omega)] at hc
    exact hc
  · simp only [getConsensus, hd]
    split <;> rfl

/-- Witness decision and swarm state: 3 agents, threshold 1/2, two votes
for "red" out of two cast. -/
def dColor : SwarmDecision :=
  { topic := "color", options := ["red", "blue"],
    votes := [("a1", "red"), ("a2", "red")], confidence := 1,
    reasoning := [] }

def swarmDemo : SwarmState :=
  { config := { maxAgents := 10, minAgents := 1, consensusThreshold := 1/2 },
    agents := ["a1", "a2", "a3"],
    decisions := [("color", dColor)],
    taskAssignments := [] }

theorem swarmDemo_inv : DecisionsInv swarmDemo := by
  intro p hp
  have hp' : p = ("color", dColor) := by
    simpa [swarmDemo] using hp
  subst hp'
  show dColor.confidence = calcConfidence dColor.votes
  have hmax : maxVoteCount dColor.votes = 2 := rfl
  have hlen : dColor.votes.length = 2 := rfl
  simp only [calcConfidence, hmax, hlen]
  norm_num [dColor]

/-- Witness for C4: quorum `ceil(1/2 * 3) = 2` is met by 2 votes; the
decision is returned with confidence 2/2 = 1. -/
theorem C4_witness :
    (getConsensus swarmDemo "color").1 = some dColor ∧
    dColor.confidence = (maxVoteCount dColor.votes : Rat) /
      dColor.votes.length := by
  have h := (C4_consensus_quorum_and_confidence swarmDemo "color" dColor
    swarmDemo_inv rfl).2.1 (by
      rw [Nat.ceil_le]
      norm_num [swarmDemo, dColor])
  exact ⟨h.1, h.2 (by decide)⟩

/-- C10 (implicit): `getConsensus` on a never-proposed topic returns the
same "no decision" `null` as an open below-quorum ballot — not an error —
and modifies no state. -/
theorem C10_unknown_topic_indistinguishable (s : SwarmState)
    (topic : String) :
    (lookup s.decisions topic = none → (getConsensus s topic).1 = none) ∧
    (∀ d, lookup s.decisions topic = some d →
      (d.votes.length : Rat) <
        (s.agents.length : Rat) * s.config.consensusThreshold →
      (getConsensus s topic).1 = none) ∧
    (getConsensus s topic).2 = s := by
  refine ⟨fun h => ?_, fun d hd hlt => ?_, ?_⟩
  · simp [getConsensus, h]
  · simp only [getConsensus, hd]
    rw [if_pos hlt]
  · cases hl : lookup s.decisions topic with
    | none => simp [getConsensus, hl]
    | some d =>
      simp only [getConsensus, hl]
      split <;> rfl

/-- Witness for C10: an unknown topic on a concrete state yields `null`
and an unchanged registry, just like the open ballot of `swarmDemo` with
one vote below quorum. -/
theorem C10_witness :
    (getConsensus swarmDemo "ghost").1 = none ∧
    (getConsensus swarmDemo "ghost").2 = swarmDemo :=
  ⟨(C10_unknown_topic_indistinguishable swarmDemo "ghost").1 rfl,
   (C10_unknown_topic_indistinguishable swarmDemo "ghost").2.2⟩

theorem ceilSqrt_le (n : Nat) : ceilSqrt n ≤ n := by
  unfold ceilSqrt
  cases hf : (List.range (n + 1)).find? (fun r => n ≤ r * r) with
  | none =>
    show n ≤ n
    exact Nat.le_refl n
  | some r =>
    have hr := List.mem_range.mp (List.mem_of_find?_eq_some hf)
    show r ≤ n
    omega

theorem assignTask_agents (tid : String) (aids : List String) :
    ∀ s : SwarmState, (assignTask s tid aids).agents = s.agents := by
  induction aids with
  | nil => intro s; rfl
  | cons a rest ih =>
    intro s
    simp only [assignTask]
    rw [ih]

theorem assignedTasks_assignTask_not_mem (tid : String) (aids : List String) :
    ∀ (s : SwarmState) (aid : String), aid ∉ aids →
      assignedTasks (assignTask s tid aids) aid = assignedTasks s aid := by
  induction aids with
  | nil => intro s aid _; rfl
  | cons a rest ih =>
    intro s aid ha
    have h1 : aid ∉ rest := fun h => ha (List.mem_cons_of_mem _ h)
    have h2 : a ≠ aid := fun h => ha (h ▸ List.mem_cons_self _ _)
    simp only [assignTask]
    rw [ih _ _ h1]
    simp only [assignedTasks]
    rw [lookup_setKV_ne _ _ _ _ h2]

theorem assignedTasks_assignTask_mem (tid : String) (aids : List String) :
    ∀ (s : SwarmState), aids.Nodup → ∀ aid ∈ aids,
      assignedTasks (assignTask s tid aids) aid =
        insertTask (assignedTasks s aid) tid := by
  induction aids with
  | nil =>
    intro s _ aid ha
    cases ha
  | cons a rest ih =>
    intro s hnd aid ha
    simp only [assignTask]
    by_cases h : aid = a
    · subst h
      have hnotin : aid ∉ rest := (List.nodup_cons.mp hnd).1
      rw [assignedTasks_assignTask_not_mem tid rest _ aid hnotin]
      simp only [assignedTasks]
      rw [lookup_setKV_self]
      rfl
    · have ha' : aid ∈ rest := by
        rcases List.mem_cons.mp ha with h' | h'
        · exact absurd h' h
        · exact h'
      rw [ih _ (List.nodup_cons.mp hnd).2 aid ha']
      simp only [assignedTasks]
      rw [lookup_setKV_ne _ _ _ _ (fun he => h he.symm)]

/-- C5: when `k ≥ 1` agents hold fewer than 3 tasks, `distributeTask`
assigns the task id to exactly `ceil(sqrt(k))` of those agents (the first
ones, pairwise distinct), leaving every other assignment set unchanged;
when none has capacity it spawns-and-assigns below `maxAgents` and
otherwise fails with the no-capacity error without mutating anything. -/
theorem C5_distribute_fanout (s : SwarmState) (taskId fresh : String)
    (hNodup : s.agents.Nodup) :
    (1 ≤ (availableAgents s).length →
      (distributeTask fresh s taskId).1 =
        .ok ((availableAgents s).take (ceilSqrt (availableAgents s).length)) ∧
      ((availableAgents s).take
          (ceilSqrt (availableAgents s).length)).length =
        ceilSqrt (availableAgents s).length ∧
      (∀ aid ∈ (availableAgents s).take
          (ceilSqrt (availableAgents s).length),
        assignedTasks (distributeTask fresh s taskId).2 aid =
          insertTask (assignedTasks s aid) taskId) ∧
      (∀ aid, aid ∉ (availableAgents s).take
          (ceilSqrt (availableAgents s).length) →
        assignedTasks (distributeTask fresh s taskId).2 aid =
          assignedTasks s aid)) ∧
    (availableAgents s = [] → s.agents.length < s.config.maxAgents →
      (distributeTask fresh s taskId).1 = .ok [fresh] ∧
      (distributeTask fresh s taskId).2.agents = s.agents ++ [fresh] ∧
      assignedTasks (distributeTask fresh s taskId).2 fresh =
        insertTask (assignedTasks s fresh) taskId) ∧
    (availableAgents s = [] → s.config.maxAgents ≤ s.agents.length →
      (distributeTask fresh s taskId).1 =
        .error "No available agents and cannot spawn more" ∧
      (distributeTask fresh s taskId).2 = s) := by
  by_cases he : availableAgents s = []
  · have hie : (availableAgents s).isEmpty = true := by
      rw [he]; rfl
    refine ⟨fun hlen => absurd hlen (by rw [he]; simp), fun _ hcap => ?_,
      fun _ hfull => ?_⟩
    · have hspawn : spawnAgent fresh s =
          (.ok fresh, { s with agents := s.agents ++ [fresh] }) := by
        simp only [spawnAgent]
        rw [if_neg (show ¬ s.config.maxAgents ≤ s.agents.length by omega)]
      have htake : List.take (ceilSqrt ([fresh] : List String).length) [fresh] =
          [fresh] := rfl
      have hd : distributeTask fresh s taskId =
          (.ok [fresh],
           assignTask { s with agents := s.agents ++ [fresh] } taskId
             [fresh]) := by
        simp only [distributeTask, hie, hspawn, htake, if_pos hcap,
          eq_self_iff_true, if_true]
      rw [hd]
      refine ⟨rfl, ?_, ?_⟩
      · rw [assignTask_agents]
      · have := assignedTasks_assignTask_mem taskId [fresh]
          ({ s with agents := s.agents ++ [fresh] })
          (by simp) fresh (by simp)
        rw [this]
        rfl
    · have hd : distributeTask fresh s taskId =
          (.error "No available agents and cannot spawn more", s) := by
        simp only [distributeTask, hie, eq_self_iff_true, if_true]
        rw [if_neg (show ¬ s.agents.length < s.config.maxAgents by omega)]
      rw [hd]
      exact ⟨rfl, rfl⟩
  · have hlen1 : 1 ≤ (availableAgents s).length := by
      cases hx : availableAgents s with
      | nil => exact absurd hx he
      | cons a rest => simp [hx]
    have hie : (availableAgents s).isEmpty = false := by
      cases hx : availableAgents s with
      | nil => exact absurd hx he
      | cons a rest => rfl
    have havNodup : (availableAgents s).Nodup := hNodup.filter _
    have htakeNodup : ((availableAgents s).take
        (ceilSqrt (availableAgents s).length)).Nodup :=
      (List.take_sublist _ _).nodup havNodup
    have hd2 : (distributeTask fresh s taskId).2 =
        assignTask s taskId ((availableAgents s).take
          (ceilSqrt (availableAgents s).length)) := by
      simp only [distributeTask, hie]
      rfl
    refine ⟨fun _ => ⟨?_, ?_, fun aid ha => ?_, fun aid ha => ?_⟩,
      fun hnil => absurd hnil he, fun hnil => absurd hnil he⟩
    · simp only [distributeTask, hie]
      rfl
    · rw [List.length_take]
      exact Nat.min_eq_left (ceilSqrt_le _)
    · rw [hd2]
      exact assignedTasks_assignTask_mem taskId _ s htakeNodup aid ha
    · rw [hd2]
      exact assignedTasks_assignTask_not_mem taskId _ s aid ha

/-- Witness swarm: five idle agents. -/
def swarmFive : SwarmState :=
  { config := { maxAgents := 10, minAgents := 1, consensusThreshold := 1/2 },
    agents := ["a1", "a2", "a3", "a4", "a5"],
    decisions := [], taskAssignments := [] }

/-- Witness for C5: with 5 idle agents the task goes to exactly
`ceil(sqrt(5)) = 3` of them. -/
theorem C5_witness :
    (distributeTask "f" swarmFive "t1").1 =
      .ok ((availableAgents swarmFive).take
        (ceilSqrt (availableAgents swarmFive).length)) ∧
    ((availableAgents swarmFive).take
        (ceilSqrt (availableAgents swarmFive).length)).length =
      ceilSqrt (availableAgents swarmFive).length ∧
    (availableAgents swarmFive).length = 5 ∧
    ceilSqrt (availableAgents swarmFive).length = 3 := by
  have h := (C5_distribute_fanout swarmFive "t1" "f" (by decide)).1 (by decide)
  exact ⟨h.1, h.2.1, by decide, by decide⟩

theorem lookup_map_values {α β : Type} (f : α → β) (l : List (String × α))
    (k : String) :
    lookup (l.map (fun p => (p.1, f p.2))) k = (lookup l k).map f := by
  induction l with
  | nil => rfl
  | cons p rest ih =>
    obtain ⟨k0, v⟩ := p
    by_cases hk : k0 = k <;> simp [lookup, hk, ih]

theorem spawnAgent_error_state (fresh : String) (s : SwarmState) (e : String)
    (h : (spawnAgent fresh s).1 = .error e) : (spawnAgent fresh s).2 = s := by
  simp only [spawnAgent] at h ⊢
  by_cases hc : s.config.maxAgents ≤ s.agents.length
  · rw [if_pos hc]
  · rw [if_neg hc] at h
    exact absurd h (by simp)

theorem mergeAgents_error_state (fresh : String) (s : SwarmState)
    (ids : List String) (e : String)
    (h : (mergeAgents fresh s ids).1 = .error e) :
    (mergeAgents fresh s ids).2 = s := by
  simp only [mergeAgents] at h ⊢
  by_cases h2 : ids.length < 2
  · rw [if_pos h2] at h
    exact absurd h (by simp)
  · rw [if_neg h2] at h ⊢
    by_cases hmin : (s.agents.length : Int) - ids.length + 1 <
        (s.config.minAgents : Int)
    · rw [if_pos hmin]
    · rw [if_neg hmin] at h ⊢
      cases hs : spawnAgent fresh s with
      | mk r s1 =>
        cases r with
        | error e1 =>
          have h2s := spawnAgent_error_state fresh s e1 (by rw [hs])
          rw [hs] at h2s
          simp only [hs]
          exact h2s
        | ok a =>
          simp only [hs] at h
          exact absurd h (by simp)

theorem submitVote_error_state (s : SwarmState) (aid topic vote : String)
    (conf : Rat) (e : String)
    (h : (submitVote s aid topic vote conf).1 = .error e) :
    (submitVote s aid topic vote conf).2 = s := by
  simp only [submitVote] at h ⊢
  cases hl : lookup s.decisions topic with
  | none => simp only [hl]
  | some d =>
    simp only [hl] at h ⊢
    by_cases hv : d.options.contains vote = true
    · rw [if_pos hv] at h
      exact absurd h (by simp)
    · rw [if_neg hv]

theorem createTeam_error_state (s : CoordState) (team : AgentTeam)
    (e : String) (h : (createTeam s team).1 = .error e) :
    (createTeam s team).2 = s := by
  simp only [createTeam] at h ⊢
  cases hv : validateTeam team with
  | some e1 => simp only [hv]
  | none =>
    simp only [hv] at h
    exact absurd h (by simp)

theorem validateTeam_none_leader (team : AgentTeam) (hh : TeamHierarchy)
    (hteam : team.hierarchy = some hh) (hnone : validateTeam team = none) :
    ∃ m ∈ team.members, m.agentId = hh.leaderId := by
  simp only [validateTeam, hteam] at hnone
  by_cases h1 : team.members.isEmpty = true
  · rw [if_pos h1] at hnone
    exact absurd hnone (by simp)
  · rw [if_neg h1] at hnone
    by_cases h2 : (!(team.members.any (fun m => m.agentId == hh.leaderId)))
        = true
    · rw [if_pos h2] at hnone
      exact absurd hnone (by simp)
    · have hany : team.members.any (fun m => m.agentId == hh.leaderId)
          = true := by
        revert h2
        cases team.members.any (fun m => m.agentId == hh.leaderId) <;> simp
      obtain ⟨m, hm, hbeq⟩ := List.any_eq_true.mp hany
      exact ⟨m, hm, by simpa using hbeq⟩

/-- C7: every listed precondition rejection (team validation, spawn at
capacity, merge below minimum, vote on an unknown topic or outside the
options) raises its error with the registries exactly as before the call;
in particular `createTeam` with a hierarchy leader absent from the member
list fails and stores nothing. -/
theorem C7_rejections_mutate_nothing :
    (∀ (s : CoordState) (team : AgentTeam) (e : String),
      (createTeam s team).1 = .error e → (createTeam s team).2 = s) ∧
    (∀ (s : SwarmState) (fresh e : String),
      (spawnAgent fresh s).1 = .error e → (spawnAgent fresh s).2 = s) ∧
    (∀ (s : SwarmState) (fresh : String) (ids : List String) (e : String),
      (mergeAgents fresh s ids).1 = .error e →
        (mergeAgents fresh s ids).2 = s) ∧
    (∀ (s : SwarmState) (aid topic vote : String) (conf : Rat) (e : String),
      (submitVote s aid topic vote conf).1 = .error e →
        (submitVote s aid topic vote conf).2 = s) ∧
    (∀ (s : CoordState) (team : AgentTeam) (hh : TeamHierarchy),
      team.hierarchy = some hh →
      (∀ m ∈ team.members, m.agentId ≠ hh.leaderId) →
      (∃ e, (createTeam s team).1 = .error e) ∧
        (createTeam s team).2 = s ∧
        lookup (createTeam s team).2.teams team.id =
          lookup s.teams team.id) := by
  refine ⟨fun s team e h => createTeam_error_state s team e h,
    fun s fresh e h => spawnAgent_error_state fresh s e h,
    fun s fresh ids e h => mergeAgents_error_state fresh s ids e h,
    fun s aid topic vote conf e h =>
      submitVote_error_state s aid topic vote conf e h,
    fun s team hh hteam hnol => ?_⟩
  cases hv : validateTeam team with
  | some e1 =>
    have h1 : (createTeam s team).1 = .error e1 := by
      simp [createTeam, hv]
    have h2 := createTeam_error_state s team e1 h1
    exact ⟨⟨e1, h1⟩, h2, by rw [h2]⟩
  | none =>
    obtain ⟨m, hm, hid⟩ := validateTeam_none_leader team hh hteam hv
    exact absurd hid (hnol m hm)

/-- Witness for C7 at concrete rejected calls: invalid team hierarchy,
spawn at capacity, merge below minimum, vote on an unknown topic. -/
theorem C7_witness :
    ((∃ e, (createTeam coordEmpty badTeam).1 = .error e) ∧
      (createTeam coordEmpty badTeam).2 = coordEmpty ∧
      lookup (createTeam coordEmpty badTeam).2.teams badTeam.id =
        lookup coordEmpty.teams badTeam.id) ∧
    (spawnAgent "x" swarmOne).2 = swarmOne ∧
    (mergeAgents "x" swarmTwo ["a1", "a2"]).2 = swarmTwo ∧
    (submitVote swarmDemo "a1" "ghost" "red" 1).2 = swarmDemo :=
  ⟨C7_rejections_mutate_nothing.2.2.2.2 coordEmpty badTeam
      { leaderId := "L", reportingChain := [] } rfl (by decide),
   C7_rejections_mutate_nothing.2.1 swarmOne "x"
      "Maximum number of agents reached" rfl,
   C7_rejections_mutate_nothing.2.2.1 swarmTwo "x" ["a1", "a2"]
      "Cannot merge agents: would result in too few agents" rfl,
   C7_rejections_mutate_nothing.2.2.2.1 swarmDemo "a1" "ghost" "red" 1
      "Decision not found" rfl⟩

theorem removeMember_ok_collabs (s : CoordState) (tid aid : String)
    (s2 : CoordState) (hok : removeMember s tid aid = (.ok (), s2)) :
    s2.collaborations =
      s.collaborations.map (fun p => (p.1, evictFromCollab aid p.2)) := by
  simp only [removeMember] at hok
  cases hl : lookup s.teams tid with
  | none =>
    simp only [hl] at hok
    exact absurd hok (by simp)
  | some team =>
    simp only [hl] at hok
    by_cases h1 : team.hierarchy.map (fun h => h.leaderId) = some aid
    · rw [if_pos h1] at hok
      exact absurd hok (by simp)
    · rw [if_neg h1] at hok
      by_cases h2 : managerHasReports team aid = true
      · rw [if_pos h2] at hok
        exact absurd hok (by simp)
      · rw [if_neg h2] at hok
        simp only [Prod.mk.injEq] at hok
        rw [← hok.2]

/-- C6 (amended): in the L/M/R team, `removeMember R` succeeds while
`removeMember M` fails with the manager-with-reports error both before
and — because removal never updates the reporting chain — also after R
has been removed; removing the current leader always fails; and every
successful removal evicts the agent from each active collaboration they
participate in, auto-completing with the default summary any
collaboration left without participants. -/
theorem C6_amended_remove_member :
    (removeMember coordDemo "t" "R").1 = .ok () ∧
    (removeMember coordDemo "t" "M").1 =
      .error "Cannot remove manager M with active reports" ∧
    (removeMember (removeMember coordDemo "t" "R").2 "t" "M").1 =
      .error "Cannot remove manager M with active reports" ∧
    (∀ (s : CoordState) (tid aid : String) (team : AgentTeam),
      lookup s.teams tid = some team →
      team.hierarchy.map (fun h => h.leaderId) = some aid →
      (removeMember s tid aid).1 =
        .error ("Cannot remove team leader " ++ aid)) ∧
    (∀ (s : CoordState) (tid aid : String) (s2 : CoordState),
      removeMember s tid aid = (.ok (), s2) →
      ∀ (cid : String) (c : Collaboration),
        lookup s.collaborations cid = some c →
        c.status = "active" → c.participants.contains aid = true →
        ∃ c2, lookup s2.collaborations cid = some c2 ∧
          c2.participants = c.participants.filter (fun pid => pid != aid) ∧
          (c2.participants = [] → c2.status = "completed" ∧
            lookup c2.sharedKnowledge "summary" =
              some "No active participants")) := by
  refine ⟨by decide, by decide, by decide, fun s tid aid team hl hlead => ?_,
    fun s tid aid s2 hok cid c hc hstatus hmem => ?_⟩
  · simp only [removeMember, hl]
    rw [if_pos hlead]
  · have hcol := removeMember_ok_collabs s tid aid s2 hok
    have hlook : lookup s2.collaborations cid = some (evictFromCollab aid c) := by
      rw [hcol, lookup_map_values, hc]
      rfl
    have hcond : (c.status == "active" && c.participants.contains aid)
        = true := by
      rw [hstatus, hmem]
      rfl
    refine ⟨evictFromCollab aid c, hlook, ?_, ?_⟩
    · simp only [evictFromCollab, hcond, if_true]
      by_cases he : (c.participants.filter (fun pid => pid != aid)).isEmpty
          = true
      · rw [if_pos he]
      · rw [if_neg he]
    · intro hemp
      simp only [evictFromCollab, hcond, if_true] at hemp ⊢
      by_cases he : (c.participants.filter (fun pid => pid != aid)).isEmpty
          = true
      · rw [if_pos he] at hemp ⊢
        exact ⟨rfl, lookup_setKV_self _ _ _⟩
      · rw [if_neg he] at hemp
        have : (c.participants.filter (fun pid => pid != aid)).isEmpty
            = true := by
          have : (evictFromCollab aid c).participants = c.participants.filter (fun pid => pid != aid) := by
            simp only [evictFromCollab, hcond, if_true]
            rw [if_neg he]
          rw [List.isEmpty_iff]
          exact hemp
        exact absurd this he

/-- Witness for C6 (amended): the leader of the demo team cannot be
removed, and removing R empties and auto-ends the collaboration. -/
theorem C6_amended_witness :
    (removeMember coordDemo "t" "L").1 =
      .error "Cannot remove team leader L" ∧
    (removeMember coordDemo "t" "R").1 = .ok () ∧
    lookup (removeMember coordDemo "t" "R").2.collaborations "c1" =
      some (evictFromCollab "R" collabR) ∧
    (evictFromCollab "R" collabR).participants = [] ∧
    (evictFromCollab "R" collabR).status = "completed" ∧
    lookup (evictFromCollab "R" collabR).sharedKnowledge "summary" =
      some "No active participants" :=
  ⟨C6_amended_remove_member.2.2.2.1 coordDemo "t" "L" teamLMR rfl rfl,
   C6_amended_remove_member.1, by decide, by decide, by decide, by decide⟩

/-- C6 counterexample: the claim says `removeMember M` fails only until R
is removed, but after successfully removing R it still fails, because the
reporting chain is never updated by removals. -/
theorem C6_counterexample :
    (removeMember coordDemo "t" "R").1 = .ok () ∧
    (removeMember (removeMember coordDemo "t" "R").2 "t" "M").1 ≠ .ok () := by
  decide

theorem mem_insertByPriority (t u : Task) (l : List Task)
    (h : u ∈ insertByPriority t l) : u = t ∨ u ∈ l := by
  induction l with
  | nil =>
    simp only [insertByPriority, List.mem_singleton] at h
    exact Or.inl h
  | cons v rest ih =>
    simp only [insertByPriority] at h
    by_cases hc : v.priority < t.priority
    · rw [if_pos hc] at h
      rcases List.mem_cons.mp h with h1 | h1
      · exact Or.inl h1
      · exact Or.inr h1
    · rw [if_neg hc] at h
      rcases List.mem_cons.mp h with h1 | h1
      · exact Or.inr (h1 ▸ List.mem_cons_self _ _)
      · rcases ih h1 with h2 | h2
        · exact Or.inl h2
        · exact Or.inr (List.mem_cons_of_mem _ h2)

theorem mem_sortByPriority (u : Task) (l : List Task)
    (h : u ∈ sortByPriority l) : u ∈ l := by
  induction l with
  | nil =>
    simp only [sortByPriority] at h
    exact h
  | cons t rest ih =>
    simp only [sortByPriority] at h
    rcases mem_insertByPriority t u _ h with h1 | h1
    · exact h1 ▸ List.mem_cons_self _ _
    · exact List.mem_cons_of_mem _ (ih h1)

/-- C9: a scheduled task is returned by `getNextTasks` (or accepted by the
scheduler's `shouldExecuteTask`) only when pending, the day filter (when
present) lists the current day, and the hour lies in some half-open
range; on the first matching range the weight is multiplied in place by
that range's multiplier.  Concretely, a Monday-09:00-17:00 task is
excluded on Tuesday 10:00 and included on Monday 10:00 with its weight 2
doubled to 4 by the range multiplier 2. -/
theorem C9_schedule_eligibility :
    (∀ (tasks : List Task) (count day hour : Nat) (t : Task),
      t ∈ getNextTasks tasks count day hour →
      t.status = "pending" ∧
      ∀ sched, t.schedule = some sched →
        dayOk sched day = true ∧
        sched.timeRanges.any (rangeMatches hour) = true) ∧
    (∀ (day hour : Nat) (t t2 : Task),
      shouldExecuteTask day hour t = (true, t2) →
      t.schedule = none ∨
        ∃ sched, t.schedule = some sched ∧ dayOk sched day = true ∧
          sched.timeRanges.any (rangeMatches hour) = true) ∧
    (∀ (day hour : Nat) (t : Task) (sched : TaskSchedule) (r : TimeRange),
      t.schedule = some sched → dayOk sched day = true →
      sched.timeRanges.find? (rangeMatches hour) = some r →
      shouldExecuteTask day hour t =
        (true,
         { t with weight := t.weight.map (fun w => w * r.multiplier) })) ∧
    getNextTasks [mondayTask] 5 2 10 = [] ∧
    getNextTasks [mondayTask] 5 1 10 = [mondayTask] ∧
    shouldExecuteTask 1 10 mondayTask =
      (true, { mondayTask with weight := some 4 }) := by
  have hshould : ∀ (day hour : Nat) (t : Task) (sched : TaskSchedule)
      (r : TimeRange), t.schedule = some sched → dayOk sched day = true →
      sched.timeRanges.find? (rangeMatches hour) = some r →
      shouldExecuteTask day hour t =
        (true,
         { t with weight := t.weight.map (fun w => w * r.multiplier) }) := by
    intro day hour t sched r hsched hday hfind
    simp only [shouldExecuteTask, hsched]
    have hnd : (!(dayOk sched day)) = false := by
      rw [hday]
      rfl
    rw [hnd]
    simp only [Bool.false_eq_true, if_false, hfind]
  refine ⟨?_, ?_, hshould, by decide, by decide, ?_⟩
  · intro tasks count day hour t ht
    have h1 : t ∈ sortByPriority (tasks.filter
        (fun t => t.status == "pending" && taskEligible day hour t)) :=
      List.mem_of_mem_take ht
    have h2 := mem_sortByPriority _ _ h1
    obtain ⟨-, hp⟩ := List.mem_filter.mp h2
    rw [Bool.and_eq_true] at hp
    refine ⟨beq_iff_eq.mp hp.1, fun sched hsched => ?_⟩
    have he := hp.2
    simp only [taskEligible, hsched] at he
    rw [Bool.and_eq_true] at he
    exact he
  · intro day hour t t2 h
    cases hs : t.schedule with
    | none => exact Or.inl rfl
    | some sched =>
      right
      simp only [shouldExecuteTask, hs] at h
      by_cases hd : dayOk sched day = true
      · have hnd : (!(dayOk sched day)) = false := by
          rw [hd]
          rfl
        rw [hnd] at h
        simp only [Bool.false_eq_true, if_false] at h
        cases hf : sched.timeRanges.find? (rangeMatches hour) with
        | none =>
          rw [hf] at h
          exact absurd h (by simp)
        | some r =>
          exact ⟨sched, rfl, hd,
            List.any_eq_true.mpr ⟨r, List.mem_of_find?_eq_some hf,
              List.find?_some hf⟩⟩
      · have hnd : (!(dayOk sched day)) = true := by
          revert hd
          cases dayOk sched day <;> simp
        rw [hnd] at h
        simp only [if_true] at h
        exact absurd h (by simp)
  · rw [hshould 1 10 mondayTask mondaySched
      { start := 9, stop := 17, multiplier := 2 } rfl rfl rfl]
    norm_num [mondayTask]

/-- Witness for C9 at the Monday task on Monday 10:00. -/
theorem C9_witness :
    mondayTask.status = "pending" ∧
    dayOk mondaySched 1 = true ∧
    mondaySched.timeRanges.any (rangeMatches 10) = true := by
  have h := C9_schedule_eligibility.1 [mondayTask] 5 1 10 mondayTask
    (by decide)
  exact ⟨h.1, (h.2 mondaySched rfl).1, (h.2 mondaySched rfl).2⟩

/-- C8: calling `shutdown` a second time after a completed first call
leaves the agent state and the persisted store exactly as the first call
left them; `shutdown` is a total function (it raises no error). -/
theorem C8_shutdown_idempotent (hasState : Bool) (uid : String)
    (s : AgentState) :
    shutdown hasState uid (shutdown hasState uid s) =
      shutdown hasState uid s := by
  cases hasState
  · rfl
  · simp only [shutdown, if_pos rfl]
    simp [saveStore_idem, mkStateData]

end Replicant
